import Mathlib

/-!
Verification of the storage-orchestration layer (pkg/storage) of the
pyroscope repository: a shallow embedding, in Lean 4, of the functions
of src/pkg/storage/storage.go that the specification talks about, and
proofs of the specified properties.

Modelling conventions:
  * Go int64 byte sizes (bytesize.ByteSize) are modelled as Int.
  * Go float64 ratios are modelled as Rat (exact arithmetic).
  * Byte strings ([]byte) are modelled as List Nat; a Go nil slice is
    modelled as the empty list.
  * Effects on collaborators (cache calls, engine close calls, GC runs)
    are modelled as explicit event traces.
-/

namespace PyroStorage

/-! ## Key prefixes (storage.go, db part: type prefix, key, trim)

Go declares `type prefix string`; `prefix` is a reserved word in Lean,
so the type is named Pfx here, its operations keeping the source names
key and trim. Byte strings are lists of byte values. -/

abbrev Bytes := List Nat

/-- Model of Go `type prefix string` (the name `prefix` is reserved in Lean). -/
abbrev Pfx := Bytes

/-- Go: `func (p prefix) key(k string) []byte { return []byte(string(p) + k) }` -/
def Pfx.key (p : Pfx) (k : Bytes) : Bytes := p ++ k

/-- Go: `func (p prefix) trim(k []byte) ([]byte, bool)`:
if `len(k) > len(p)` it returns `(k[len(p):], true)`, else `(nil, false)`. -/
def Pfx.trim (p : Pfx) (k : Bytes) : Bytes × Bool :=
  if k.length > p.length then (k.drop p.length, true) else ([], false)

/-! ## The data model of the orchestrator

A db couples a name, a current on-disk size (the value `d.size()`
reports) and the presence of a cache (`d.Cache != nil`; in `New`, only
the main database has no cache, since it is created with a nil codec). -/

structure DB where
  name : String
  size : Int
  hasCache : Bool
  deriving DecidableEq, Repr

/-- The orchestrator state needed by the size-watching and close logic:
the five databases and the aggregate-size baseline `s.size`. -/
structure Storage where
  main : DB
  dimensions : DB
  segments : DB
  dicts : DB
  trees : DB
  size : Int
  deriving DecidableEq, Repr

/-- Go `func (s *Storage) databases() []*db` — the fixed, ordered list. -/
def Storage.databases (s : Storage) : List DB :=
  [s.main, s.dimensions, s.segments, s.dicts, s.trees]

/-- Go `func (s *Storage) DiskUsage() map[string]bytesize.ByteSize`:
one entry per database, keyed by name.  Modelled as the association list
in database order (the Go map holds exactly these pairs since the five
names are distinct in any storage built by `New`). -/
def Storage.DiskUsage (s : Storage) : List (String × Int) :=
  s.databases.map fun d => (d.name, d.size)

/-- The shape `New` gives a storage: the five canonical database names,
and a cache on every database except main (which is opened with a nil
codec). -/
def Storage.wellFormed (s : Storage) : Prop :=
  s.main.name = "main" ∧ s.dimensions.name = "dimensions" ∧
  s.segments.name = "segments" ∧ s.dicts.name = "dicts" ∧
  s.trees.name = "trees" ∧
  s.main.hasCache = false ∧ s.dimensions.hasCache = true ∧
  s.segments.hasCache = true ∧ s.dicts.hasCache = true ∧
  s.trees.hasCache = true

instance (s : Storage) : Decidable s.wellFormed := by
  unfold Storage.wellFormed; infer_instance

/-! ## Aggregate size-triggered GC (storage.go lines 246-259)

`watchDBSize(diff, f)` returns a closure; each tick of that closure sums
`s.DiskUsage()` into `n` and, when `diff == 0 || n-s.size > diff`, sets
`s.size = n` and calls `f` (the full GC pass `s.CollectGarbage`).  One
tick is modelled as a function from the storage state to the new state
paired with whether `f` was invoked. -/

def Storage.aggregateSize (s : Storage) : Int :=
  (s.DiskUsage.map Prod.snd).sum

def Storage.watchDBSizeTick (s : Storage) (diff : Int) : Storage × Bool :=
  let n := s.aggregateSize
  if diff = 0 ∨ n - s.size > diff then ({ s with size := n }, true)
  else (s, false)

/-! ## Eviction task (storage.go lines 211-236)

One tick of the closure returned by `evictionTask(memTotal)`: it reads
the allocated process memory `m.Alloc`, computes
`used = float64(m.Alloc)/float64(memTotal)`, and when
`used < s.config.CacheEvictThreshold` does nothing; otherwise it evicts
the configured volume from the trees cache, writes back the dicts,
dimensions and segments caches (in that order) and asks the runtime for
a GC cycle.  The calls it makes are recorded as a trace. -/

inductive CacheCall
  | evict (dbName : String) (percent : ℚ)
  | writeBack (dbName : String)
  | runtimeGC
  deriving DecidableEq, Repr

def evictionTaskTick (alloc memTotal threshold percent : ℚ) : List CacheCall :=
  let used := alloc / memTotal
  if used < threshold then []
  else
    [CacheCall.evict "trees" percent,
     CacheCall.writeBack "dicts",
     CacheCall.writeBack "dimensions",
     CacheCall.writeBack "segments",
     CacheCall.runtimeGC]

/-! ## Closing (storage.go lines 130-158 and db part lines 512-519)

`db.close` flushes the cache when there is one, then closes the badger
engine, logging (and absorbing) a close error.  `Storage.Close` stops
the tasks, waits for them, runs `d.close()` concurrently via `goDB` for
every database other than dicts, waits for those goroutines, closes
dicts last and returns nil.

Close attempts are recorded as a trace of events; `fails nm` says
whether the engine-close call of database `nm` returns an error (the
flush has no error return in the cache interface). -/

inductive CloseEvent
  | flush (dbName : String)
  | engineClose (dbName : String) (failed : Bool)
  deriving DecidableEq, Repr

/-- The database a close event concerns. -/
def CloseEvent.dbName : CloseEvent → String
  | CloseEvent.flush nm => nm
  | CloseEvent.engineClose nm _ => nm

/-- Go `func (d *db) close()`: flush the cache when present, then close
the engine; an engine-close error is logged, not propagated, so the
event records it and nothing else happens. -/
def dbCloseEvents (d : DB) (fails : String → Bool) : List CloseEvent :=
  (if d.hasCache then [CloseEvent.flush d.name] else []) ++
  [CloseEvent.engineClose d.name (fails d.name)]

/-- The per-goroutine event sequences of the `goDB` call in `Close`:
one goroutine per database, running `d.close()` unless the database is
the dicts database (the Go closure compares the pointer `d != s.dicts`;
in a storage built by `New` the five databases are distinct objects and
dicts is identified by its name). -/
def Storage.goDBQueues (s : Storage) (fails : String → Bool) : List (List CloseEvent) :=
  s.databases.map fun d =>
    if d.name = s.dicts.name then [] else dbCloseEvents d fails

/-- The event trace of one `Close` call.  The `goDB` goroutines run
concurrently and `wg.Wait()` joins them all before dicts is closed, so
the observed trace is some interleaving `u` of the per-goroutine
sequences — every such interleaving is a permutation of their
concatenation, and theorems quantify over all those permutations —
followed by the dicts close events. -/
def Storage.closeTrace (s : Storage) (fails : String → Bool)
    (u : List CloseEvent) : List CloseEvent :=
  u ++ dbCloseEvents s.dicts fails

/-- One `Close` call: Go returns the literal `nil` (modelled as `none`)
after producing the trace. -/
def Storage.CloseRun (s : Storage) (fails : String → Bool)
    (u : List CloseEvent) : Option String × List CloseEvent :=
  (none, s.closeTrace fails u)

/-! ## Value-log GC loop (db parts: runGC)

The repository holds two variants of `func (d *db) runGC(discardRatio
float64) (reclaimed bool)`.  Both flatten the engine (logging a flatten
error and carrying on) and then loop on `d.RunValueLogGC(discardRatio)`:
an `ErrNoRewrite` result ends the loop as a normal terminal condition,
any other error is logged and the call returns false, and a nil result
sets `reclaimed = true` and continues.  They differ in the
`ErrNoRewrite` arm: the variant at storage.go lines 395-413 executes
`return false` there, discarding `reclaimed`; the variant at lines
527-545 executes `return reclaimed`.

The results of the successive `RunValueLogGC` calls are modelled as a
list; the loop consumes it and, when it reaches a terminal result,
yields `some` of the returned Bool.  `none` means the list ended before
a terminal result (the Go loop would call the engine again). -/

inductive GCResult
  | ok
  | noRewrite
  | err
  deriving DecidableEq, Repr

/-- The GC loop of the variant at lines 527-545: `return reclaimed` on
`ErrNoRewrite`. -/
def runGCLoop : List GCResult → Bool → Option Bool
  | [], _ => none
  | GCResult.err :: _, _ => some false
  | GCResult.noRewrite :: _, reclaimed => some reclaimed
  | GCResult.ok :: rest, _ => runGCLoop rest true

/-- The GC loop of the variant at lines 395-413: `return false` on
`ErrNoRewrite`. -/
def runGCLoopOld : List GCResult → Bool → Option Bool
  | [], _ => none
  | GCResult.err :: _, _ => some false
  | GCResult.noRewrite :: _, _ => some false
  | GCResult.ok :: rest, _ => runGCLoopOld rest true

/-- Go `func (d *db) runGC(discardRatio float64) (reclaimed bool)` at
lines 527-545.  `flattenFailed` records whether the initial `Flatten(2)`
errored; that error is logged and has no effect on the result. -/
def runGC (flattenFailed : Bool) (results : List GCResult) : Option Bool :=
  let _ := flattenFailed
  runGCLoop results false

/-- The `runGC` variant at lines 395-413. -/
def runGCOld (flattenFailed : Bool) (results : List GCResult) : Option Bool :=
  let _ := flattenFailed
  runGCLoopOld results false

/-! ## Construction (storage.go lines 63-128 and newBadger, lines 460-510)

`New` opens main, dicts, dimensions, segments and trees in that order
via `newBadger`; each successful `newBadger` call registers the
database's incremental-GC maintenance task (lines 500-507) before
returning.  Any failed step makes `New` return `nil, err` at once: no
already-opened database is closed on that path, no registered task is
stopped, and the four orchestrator-level tasks (aggregate GC, eviction,
write back, metrics) are only started after the last fallible step. -/

structure NewInput where
  mainOk : Bool
  dictsOk : Bool
  dimensionsOk : Bool
  segmentsOk : Bool
  treesOk : Bool
  migrateOk : Bool
  memOk : Bool
  deriving DecidableEq, Repr

structure NewOutcome where
  /-- `New` returned an orchestrator (err = nil). -/
  ok : Bool
  /-- Databases successfully opened, in open order. -/
  openedDbs : List String
  /-- Databases closed before `New` returned (no path closes any). -/
  closedDbs : List String
  /-- Per-database GC maintenance tasks registered by `newBadger`. -/
  gcTasks : List String
  /-- The four orchestrator-level background tasks were started. -/
  mainTasksStarted : Bool
  deriving DecidableEq, Repr

/-- Transliteration of `New`: each `if err != nil { return nil, err }`
becomes one branch recording what had been done by that point. -/
def NewModel (i : NewInput) : NewOutcome :=
  if i.mainOk = false then
    ⟨false, [], [], [], false⟩
  else if i.dictsOk = false then
    ⟨false, ["main"], [], ["main"], false⟩
  else if i.dimensionsOk = false then
    ⟨false, ["main", "dicts"], [], ["main", "dicts"], false⟩
  else if i.segmentsOk = false then
    ⟨false, ["main", "dicts", "dimensions"], [],
      ["main", "dicts", "dimensions"], false⟩
  else if i.treesOk = false then
    ⟨false, ["main", "dicts", "dimensions", "segments"], [],
      ["main", "dicts", "dimensions", "segments"], false⟩
  else if i.migrateOk = false then
    ⟨false, ["main", "dicts", "dimensions", "segments", "trees"], [],
      ["main", "dicts", "dimensions", "segments", "trees"], false⟩
  else if i.memOk = false then
    ⟨false, ["main", "dicts", "dimensions", "segments", "trees"], [],
      ["main", "dicts", "dimensions", "segments", "trees"], false⟩
  else
    ⟨true, ["main", "dicts", "dimensions", "segments", "trees"], [],
      ["main", "dicts", "dimensions", "segments", "trees"], true⟩

/-- Some construction step failed. -/
def NewInput.someStepFails (i : NewInput) : Prop :=
  i.mainOk = false ∨ i.dictsOk = false ∨ i.dimensionsOk = false ∨
  i.segmentsOk = false ∨ i.treesOk = false ∨ i.migrateOk = false ∨
  i.memOk = false

instance (i : NewInput) : Decidable i.someStepFails := by
  unfold NewInput.someStepFails; infer_instance

/-! ## Per-database incremental GC (newBadger, lines 500-507)

Each opened database gets a maintenance task whose body is

  diff := calculateDBSize(badgerPath) - d.lastGC
  if d.lastGC == 0 || s.gcSizeDiff == 0 || diff > s.gcSizeDiff {
    d.runGC(0.7)
    d.gcCount.Inc()
    d.lastGC = calculateDBSize(badgerPath)
  }

`lastGC` starts at 0 (zero value of the db struct) and doubles as the
"no GC yet" sentinel.  One tick is modelled with the directory size at
its start (`sizeBefore`) and the size recomputed after the reclaim pass
(`sizeAfter`); the second component of the result is `some r` when a
reclaim pass with discard ratio `r` ran, `none` otherwise. -/

structure DbGC where
  lastGC : Int
  gcCount : Nat
  deriving DecidableEq, Repr

def badgerGCTick (gcSizeDiff sizeBefore sizeAfter : Int) (st : DbGC) :
    DbGC × Option ℚ :=
  let diff := sizeBefore - st.lastGC
  if st.lastGC = 0 ∨ gcSizeDiff = 0 ∨ diff > gcSizeDiff then
    ({ lastGC := sizeAfter, gcCount := st.gcCount + 1 }, some (7 / 10))
  else (st, none)

/-! ## Periodic task scheduling (storage.go lines 188-209)

`periodicTask(interval, f)` first does a non-blocking select on the
stop channel: if stop has already fired it returns without running `f`,
otherwise it runs `f` once.  Then it loops, each iteration selecting
the stop channel (return) or the timer (run `f`, then reset the timer
to the same interval).  The adversarial schedule is the value of the
initial non-blocking check plus, for each loop iteration, which ready
channel the select takes; the task's observable behaviour is its trace
of body runs, timer resets and its exit. -/

inductive TaskStep
  | stopSignal
  | timerFire
  deriving DecidableEq, Repr

inductive TaskEvent
  | bodyRun
  | timerReset (interval : Int)
  | exited
  deriving DecidableEq, Repr

/-- The `for { select ... } }` loop: a stop selection exits, a timer
selection runs the body and resets the timer to the same interval.  An
exhausted schedule means the task is still blocked in its select (no
further events yet). -/
def loopTrace (interval : Int) : List TaskStep → List TaskEvent
  | [] => []
  | TaskStep.stopSignal :: _ => [TaskEvent.exited]
  | TaskStep.timerFire :: rest =>
      TaskEvent.bodyRun :: TaskEvent.timerReset interval :: loopTrace interval rest

/-- One execution of `periodicTask`: `stopAlready` is whether the stop
channel had fired before the initial non-blocking select. -/
def periodicTaskTrace (interval : Int) (stopAlready : Bool)
    (sched : List TaskStep) : List TaskEvent :=
  if stopAlready then [TaskEvent.exited]
  else TaskEvent.bodyRun :: loopTrace interval sched

/-! ## Maintenance exclusivity (storage.go lines 41-45, 180-186)

`maintenanceTask(interval, f)` wraps the body of a periodic task in
`s.maintenance.Lock(); defer s.maintenance.Unlock()`.  The four
maintenance bodies — the aggregate size-triggered GC, the eviction
task, the write-back task, and the per-database incremental GC tasks
registered by `newBadger` — all go through this wrapper; the metrics
task (`updateMetricsTask`) is started through `periodicTask` directly
and never touches the mutex.

The mutex discipline is modelled as a labelled transition system over
the phases of the maintenance tasks (idle, waiting on the mutex, in the
critical section) plus a flag for the metrics body running; acquiring
requires that nobody is in the critical section. -/

inductive MTask
  | aggregateGC
  | eviction
  | writeBackT
  | perDbGC
  deriving DecidableEq, Fintype, Repr

inductive Phase
  | idle
  | waiting
  | critical
  deriving DecidableEq, Repr

structure ConcState where
  phase : MTask → Phase
  metricsRunning : Bool

/-- Before any task body has started. -/
def initConc : ConcState := ⟨fun _ => Phase.idle, false⟩

/-- The steps of the system: a maintenance task calls `Lock` (waits),
is granted the mutex only while no task holds it, or releases it at the
end of its body; the metrics body starts and ends without touching the
mutex. -/
inductive ConcStep : ConcState → ConcState → Prop
  | lockRequest (s : ConcState) (t : MTask) :
      s.phase t = Phase.idle →
      ConcStep s ⟨Function.update s.phase t Phase.waiting, s.metricsRunning⟩
  | lockAcquire (s : ConcState) (t : MTask) :
      s.phase t = Phase.waiting →
      (∀ u, s.phase u ≠ Phase.critical) →
      ConcStep s ⟨Function.update s.phase t Phase.critical, s.metricsRunning⟩
  | unlock (s : ConcState) (t : MTask) :
      s.phase t = Phase.critical →
      ConcStep s ⟨Function.update s.phase t Phase.idle, s.metricsRunning⟩
  | metricsStart (s : ConcState) :
      s.metricsRunning = false →
      ConcStep s ⟨s.phase, true⟩
  | metricsEnd (s : ConcState) :
      s.metricsRunning = true →
      ConcStep s ⟨s.phase, false⟩

/-- States the system can actually be in. -/
def ConcReachable (s : ConcState) : Prop :=
  Relation.ReflTransGen ConcStep initConc s

/-! ## A concrete storage value for instantiating the theorems -/

def sampleStorage : Storage :=
  { main := ⟨"main", 100, false⟩
    dimensions := ⟨"dimensions", 50, true⟩
    segments := ⟨"segments", 30, true⟩
    dicts := ⟨"dicts", 20, true⟩
    trees := ⟨"trees", 200, true⟩
    size := 0 }

/-! # Theorems -/

/-- C10: for every prefix p and byte string k, trim returns
(k minus its first len(p) bytes, true) whenever len(k) > len(p) — the
removed bytes are not required to equal p — and (nil, false) otherwise;
hence for every non-empty s, trim(key(s)) round-trips to (s, true). -/
theorem C10_prefix_trim (p k s2 : Bytes)
    (hk : k.length > p.length) (hs : s2 ≠ []) :
    Pfx.trim p k = (k.drop p.length, true)
    ∧ (∀ k2 : Bytes, k2.length ≤ p.length → Pfx.trim p k2 = ([], false))
    ∧ Pfx.trim p (Pfx.key p s2) = (s2, true) := by
  refine ⟨?_, ?_, ?_⟩
  · simp [Pfx.trim, hk]
  · intro k2 h2
    simp [Pfx.trim, Nat.not_lt.mpr h2]
  · have hlen : (Pfx.key p s2).length > p.length := by
      simp [Pfx.key]
      exact List.length_pos.mpr hs
    simp [Pfx.trim, Pfx.key, hlen, hs]

/-- Witness for C10 at the dictionary prefix bytes [100, 58] (the bytes
of the Go constant dictionaryPrefix, d and colon), a key [1, 2, 3] whose
leading bytes differ from that prefix, and the one-byte string [7]. -/
theorem C10_prefix_trim_witness :
    ([1, 2, 3] : Bytes).length > ([100, 58] : Bytes).length
    ∧ Pfx.trim [100, 58] [1, 2, 3] = ([3], true)
    ∧ Pfx.trim [100, 58] (Pfx.key [100, 58] [7]) = ([7], true) := by
  have h := C10_prefix_trim [100, 58] [1, 2, 3] [7] (by decide) (by decide)
  exact ⟨by decide, by simpa using h.1, h.2.2⟩

/-- C1: on a tick of the aggregate size-triggered GC task with
size-diff threshold diff, where n is the sum of all databases' on-disk
sizes, the full GC pass runs iff diff = 0 or n minus the baseline
exceeds diff strictly; a triggering tick records n as the new baseline
and a non-triggering tick leaves the whole state unchanged. -/
theorem C1_aggregate_gc_trigger (s : Storage) (diff : Int) :
    ((s.watchDBSizeTick diff).2 = true ↔
      diff = 0 ∨ s.aggregateSize - s.size > diff)
    ∧ ((s.watchDBSizeTick diff).2 = true →
        (s.watchDBSizeTick diff).1 = { s with size := s.aggregateSize })
    ∧ ((s.watchDBSizeTick diff).2 = false → (s.watchDBSizeTick diff).1 = s)
    ∧ s.aggregateSize =
        s.main.size + s.dimensions.size + s.segments.size +
        s.dicts.size + s.trees.size := by
  refine ⟨?_, ?_, ?_, ?_⟩ <;>
    first
    | (unfold Storage.watchDBSizeTick
       by_cases h : diff = 0 ∨ s.aggregateSize - s.size > diff <;> simp [h])
    | (simp [Storage.aggregateSize, Storage.DiskUsage, Storage.databases]
       ring)

/-- Witness for C1: the sample storage has aggregate size 400 and
baseline 0, so with threshold 256 the tick triggers and records 400. -/
theorem C1_aggregate_gc_trigger_witness :
    (sampleStorage.watchDBSizeTick 256).2 = true
    ∧ (sampleStorage.watchDBSizeTick 256).1 =
        { sampleStorage with size := sampleStorage.aggregateSize } := by
  have h := C1_aggregate_gc_trigger sampleStorage 256
  have ht : (sampleStorage.watchDBSizeTick 256).2 = true :=
    h.1.mpr (Or.inr (by decide))
  exact ⟨ht, h.2.1 ht⟩

/-- C2: on an eviction-task tick with ratio = alloc / memTotal, a ratio
strictly below the threshold makes the tick a no-op, while a ratio at
or above the threshold produces exactly one eviction of the trees cache
with the configured percentage followed by exactly one write-back call
each for the dicts, dimensions and segments caches, in that order. -/
theorem C2_eviction_tick (alloc memTotal threshold percent : ℚ) :
    (alloc / memTotal < threshold →
      evictionTaskTick alloc memTotal threshold percent = [])
    ∧ (threshold ≤ alloc / memTotal →
      evictionTaskTick alloc memTotal threshold percent =
        [CacheCall.evict "trees" percent,
         CacheCall.writeBack "dicts",
         CacheCall.writeBack "dimensions",
         CacheCall.writeBack "segments",
         CacheCall.runtimeGC]) := by
  constructor
  · intro h
    simp [evictionTaskTick, h]
  · intro h
    simp [evictionTaskTick, not_lt.mpr h]

/-- Witness for C2 at the boundary: alloc 3, memTotal 4, threshold 3/4,
so the ratio equals the threshold exactly and eviction fires. -/
theorem C2_eviction_tick_witness :
    evictionTaskTick 3 4 (3 / 4) (1 / 10) =
      [CacheCall.evict "trees" (1 / 10),
       CacheCall.writeBack "dicts",
       CacheCall.writeBack "dimensions",
       CacheCall.writeBack "segments",
       CacheCall.runtimeGC] :=
  (C2_eviction_tick 3 4 (3 / 4) (1 / 10)).2 (le_refl _)

/-- C4: the claim fails on the runGC variant at storage.go lines
395-413.  With the engine result sequence [nil, ErrNoRewrite] one
value-log GC invocation succeeds before the normal terminal condition,
so the claim requires the call to report true; that variant returns
false (its named result reclaimed is assigned but every return path
yields the literal false), while the variant at lines 527-545 returns
true as claimed.  The last two conjuncts record the agreed behaviour on
an unrelated reclaim error and on an immediate ErrNoRewrite. -/
theorem C4_runGC_divergence :
    runGCOld false [GCResult.ok, GCResult.noRewrite] = some false
    ∧ runGC false [GCResult.ok, GCResult.noRewrite] = some true
    ∧ runGC false [GCResult.ok, GCResult.err] = some false
    ∧ runGC false [GCResult.noRewrite] = some false := by
  decide

/-- C5 counterexample: with every database opening successfully and the
migration step failing, New returns an error, yet the model shows no
opened database was closed (released) and all five per-database GC
maintenance tasks stay registered — refuting the claim that partially
opened databases are released and no maintenance task is left. -/
theorem C5_counterexample :
    (NewModel ⟨true, true, true, true, true, false, true⟩).ok = false
    ∧ (NewModel ⟨true, true, true, true, true, false, true⟩).closedDbs = []
    ∧ (NewModel ⟨true, true, true, true, true, false, true⟩).openedDbs =
        ["main", "dicts", "dimensions", "segments", "trees"]
    ∧ (NewModel ⟨true, true, true, true, true, false, true⟩).gcTasks ≠ [] := by
  decide

/-- C5 (amended): if any construction step fails then New returns an
error with no orchestrator and the four orchestrator-level background
tasks are not started; however, the databases opened before the failing
step are not closed, and the per-database GC task registered by each
successful open remains in place (one task per opened database). -/
theorem C5_construction_failure (i : NewInput) (h : i.someStepFails) :
    (NewModel i).ok = false
    ∧ (NewModel i).mainTasksStarted = false
    ∧ (NewModel i).closedDbs = []
    ∧ (NewModel i).gcTasks = (NewModel i).openedDbs := by
  obtain ⟨m, d1, d2, sg, tr, mg, me⟩ := i
  revert h
  revert m d1 d2 sg tr mg me
  decide

/-- Witness for C5 at a failing dictionaries open. -/
theorem C5_construction_failure_witness :
    (NewModel ⟨true, false, true, true, true, true, true⟩).ok = false
    ∧ (NewModel ⟨true, false, true, true, true, true, true⟩).mainTasksStarted = false
    ∧ (NewModel ⟨true, false, true, true, true, true, true⟩).closedDbs = []
    ∧ (NewModel ⟨true, false, true, true, true, true, true⟩).gcTasks =
        (NewModel ⟨true, false, true, true, true, true, true⟩).openedDbs :=
  C5_construction_failure ⟨true, false, true, true, true, true, true⟩ (by decide)

/-- C6 counterexample: threshold 10, first tick sees size 5 and runs (a
first tick always runs), the post-pass snapshot is 0 (empty database);
on the second tick the delta 5 does not exceed the threshold 10 and the
threshold is non-zero, yet a reclaim pass runs again, because the zero
snapshot is indistinguishable from the unset sentinel — refuting the
claimed iff for subsequent ticks. -/
theorem C6_counterexample :
    (badgerGCTick 10 5 0 ⟨0, 0⟩).1.lastGC = 0
    ∧ (badgerGCTick 10 5 0 ⟨0, 0⟩).1.gcCount = 1
    ∧ (5 : Int) - (badgerGCTick 10 5 0 ⟨0, 0⟩).1.lastGC ≤ 10
    ∧ (badgerGCTick 10 5 5 (badgerGCTick 10 5 0 ⟨0, 0⟩).1).2 = some (7 / 10) :=
  ⟨rfl, rfl, by decide, rfl⟩

/-- C6 (amended): a tick of a database's incremental GC task runs a
reclaim pass iff the recorded baseline is zero (which covers both the
unset state of a freshly opened database and a genuine zero-size
snapshot), the threshold is zero, or the size delta since the last GC
strictly exceeds the threshold; every pass uses the fixed discard ratio
7/10, increments the reclaim counter and snapshots the baseline to the
database's current size; a non-running tick changes nothing. -/
theorem C6_per_db_gc (gcSizeDiff sizeBefore sizeAfter : Int) (st : DbGC) :
    ((badgerGCTick gcSizeDiff sizeBefore sizeAfter st).2 ≠ none ↔
      st.lastGC = 0 ∨ gcSizeDiff = 0 ∨ sizeBefore - st.lastGC > gcSizeDiff)
    ∧ ((badgerGCTick gcSizeDiff sizeBefore sizeAfter st).2 ≠ none →
        (badgerGCTick gcSizeDiff sizeBefore sizeAfter st).2 = some (7 / 10)
        ∧ (badgerGCTick gcSizeDiff sizeBefore sizeAfter st).1 =
            ⟨sizeAfter, st.gcCount + 1⟩)
    ∧ ((badgerGCTick gcSizeDiff sizeBefore sizeAfter st).2 = none →
        (badgerGCTick gcSizeDiff sizeBefore sizeAfter st).1 = st) := by
  unfold badgerGCTick
  by_cases h : st.lastGC = 0 ∨ gcSizeDiff = 0 ∨ sizeBefore - st.lastGC > gcSizeDiff <;>
    simp [h]

/-- Witness for C6: a freshly opened database (baseline unset), size
300 at the tick and 280 after the pass, threshold 256. -/
theorem C6_per_db_gc_witness :
    (badgerGCTick 256 300 280 ⟨0, 0⟩).2 = some (7 / 10)
    ∧ (badgerGCTick 256 300 280 ⟨0, 0⟩).1 = ⟨280, 1⟩ := by
  have h := C6_per_db_gc 256 300 280 ⟨0, 0⟩
  have hr : (badgerGCTick 256 300 280 (⟨0, 0⟩ : DbGC)).2 ≠ none :=
    h.1.mpr (Or.inl rfl)
  exact ⟨(h.2.1 hr).1, (h.2.1 hr).2⟩

theorem loopTrace_count_bodyRun (interval : Int) (sched : List TaskStep) :
    (loopTrace interval sched).count TaskEvent.bodyRun =
      (sched.takeWhile fun stp => stp == TaskStep.timerFire).length := by
  induction sched with
  | nil => simp [loopTrace]
  | cons hd tl ih =>
    cases hd <;> simp [loopTrace, List.takeWhile_cons, List.count_cons, ih]

theorem loopTrace_exit_final (interval : Int) (sched : List TaskStep)
    (l1 l2 : List TaskEvent)
    (h : loopTrace interval sched = l1 ++ TaskEvent.exited :: l2) :
    l2 = [] := by
  induction sched generalizing l1 with
  | nil => simp [loopTrace] at h
  | cons hd tl ih =>
    cases hd
    · rcases l1 with _ | ⟨a, l1t⟩ <;> simp_all [loopTrace]
    · rcases l1 with _ | ⟨a, l1t⟩
      · simp [loopTrace] at h
      · rcases l1t with _ | ⟨b, l1tt⟩
        · simp [loopTrace] at h
        · simp only [loopTrace, List.cons_append, List.cons.injEq] at h
          exact ih l1tt h.2.2

theorem loopTrace_reset_eq (interval : Int) (sched : List TaskStep) (d : Int)
    (h : TaskEvent.timerReset d ∈ loopTrace interval sched) : d = interval := by
  induction sched with
  | nil => simp [loopTrace] at h
  | cons hd tl ih =>
    cases hd
    · simp [loopTrace] at h
    · simp [loopTrace] at h
      rcases h with h | h
      · exact h
      · exact ih h

/-- C7: a periodic task runs its body once immediately at start unless
the stop signal has already fired (then zero runs); afterwards each
loop iteration either observes stop and exits — the exit is the final
event, so no body execution follows it — or runs the body once on a
timer expiry and reschedules the timer for the same fixed interval. -/
theorem C7_periodic_task (interval : Int) (stopAlready : Bool)
    (sched : List TaskStep) :
    ((periodicTaskTrace interval stopAlready sched).count TaskEvent.bodyRun =
      if stopAlready then 0
      else 1 + (sched.takeWhile fun stp => stp == TaskStep.timerFire).length)
    ∧ (∀ l1 l2, periodicTaskTrace interval stopAlready sched =
          l1 ++ TaskEvent.exited :: l2 → l2 = [])
    ∧ (∀ d, TaskEvent.timerReset d ∈ periodicTaskTrace interval stopAlready sched →
          d = interval) := by
  refine ⟨?_, ?_, ?_⟩
  · cases stopAlready <;>
      simp [periodicTaskTrace, List.count_cons, loopTrace_count_bodyRun,
        Nat.add_comm]
  · intro l1 l2 h
    cases stopAlready
    · simp only [periodicTaskTrace, if_neg Bool.false_ne_true] at h
      rcases l1 with _ | ⟨a, l1t⟩
      · simp at h
      · simp only [List.cons_append, List.cons.injEq] at h
        exact loopTrace_exit_final interval sched l1t l2 h.2
    · simp only [periodicTaskTrace, if_pos rfl] at h
      rcases l1 with _ | ⟨a, l1t⟩ <;> simp_all
  · intro d h
    cases stopAlready <;> simp [periodicTaskTrace] at h
    exact loopTrace_reset_eq interval sched d h

/-- Witness for C7: interval 5, stop not yet fired, schedule of two
timer expiries, a stop observation, then a stray timer expiry: the body
runs three times (once immediately, once per timer expiry before stop)
and every timer reset uses the same interval 5. -/
theorem C7_periodic_task_witness :
    ((periodicTaskTrace 5 false [TaskStep.timerFire, TaskStep.timerFire,
        TaskStep.stopSignal, TaskStep.timerFire]).count TaskEvent.bodyRun = 3)
    ∧ (∀ d, TaskEvent.timerReset d ∈ periodicTaskTrace 5 false
          [TaskStep.timerFire, TaskStep.timerFire, TaskStep.stopSignal,
           TaskStep.timerFire] → d = 5) := by
  have h := C7_periodic_task 5 false
    [TaskStep.timerFire, TaskStep.timerFire, TaskStep.stopSignal,
     TaskStep.timerFire]
  exact ⟨by simpa using h.1, h.2.2⟩

theorem goDBQueues_join_of_wellFormed (s : Storage) (hn : s.wellFormed)
    (fails : String → Bool) :
    (s.goDBQueues fails).flatten =
      [CloseEvent.engineClose "main" (fails "main"),
       CloseEvent.flush "dimensions",
       CloseEvent.engineClose "dimensions" (fails "dimensions"),
       CloseEvent.flush "segments",
       CloseEvent.engineClose "segments" (fails "segments"),
       CloseEvent.flush "trees",
       CloseEvent.engineClose "trees" (fails "trees")] := by
  obtain ⟨h1, h2, h3, h4, h5, c1, c2, c3, c4, c5⟩ := hn
  simp [Storage.goDBQueues, Storage.databases, dbCloseEvents,
    h1, h2, h3, h4, h5, c1, c2, c3, c4, c5]

theorem engineClose_mem_interleaving (s : Storage) (hn : s.wellFormed)
    (fails : String → Bool) (u : List CloseEvent)
    (hu : u.Perm (s.goDBQueues fails).flatten) (nm : String)
    (hnm : nm ∈ (["main", "dimensions", "segments", "trees"] : List String)) :
    CloseEvent.engineClose nm (fails nm) ∈ u := by
  have hj := goDBQueues_join_of_wellFormed s hn fails
  refine hu.mem_iff.mpr ?_
  rw [hj]
  simp only [List.mem_cons, List.not_mem_nil, or_false] at hnm
  rcases hnm with rfl | rfl | rfl | rfl <;> simp

/-- C3: in every execution of Close — for every interleaving of the
concurrent per-database close goroutines and every assignment of close
errors — the dictionaries database's close events begin only after the
interleaved phase, which contains the completed close attempt of each
of main, dimensions, segments and trees and no dicts event at all. -/
theorem C3_dicts_closed_last (s : Storage) (hn : s.wellFormed)
    (fails : String → Bool) (u : List CloseEvent)
    (hu : u.Perm (s.goDBQueues fails).flatten) :
    s.closeTrace fails u =
      u ++ [CloseEvent.flush "dicts",
            CloseEvent.engineClose "dicts" (fails "dicts")]
    ∧ (∀ e ∈ u, e.dbName ≠ "dicts")
    ∧ (∀ nm ∈ (["main", "dimensions", "segments", "trees"] : List String),
        CloseEvent.engineClose nm (fails nm) ∈ u) := by
  have hj := goDBQueues_join_of_wellFormed s hn fails
  refine ⟨?_, ?_, fun nm hnm => engineClose_mem_interleaving s hn fails u hu nm hnm⟩
  · obtain ⟨h1, h2, h3, h4, h5, c1, c2, c3, c4, c5⟩ := hn
    simp [Storage.closeTrace, dbCloseEvents, h4, c4]
  · intro e he
    have hm : e ∈ (s.goDBQueues fails).flatten := hu.mem_iff.mp he
    rw [hj] at hm
    simp only [List.mem_cons, List.not_mem_nil, or_false] at hm
    rcases hm with rfl | rfl | rfl | rfl | rfl | rfl | rfl <;>
      simp [CloseEvent.dbName]

/-- Witness for C3 at the sample storage, with every close attempt
erroring and the identity interleaving. -/
theorem C3_dicts_closed_last_witness :
    sampleStorage.closeTrace (fun _ => true)
        ((sampleStorage.goDBQueues fun _ => true).flatten) =
      (sampleStorage.goDBQueues fun _ => true).flatten ++
        [CloseEvent.flush "dicts", CloseEvent.engineClose "dicts" true]
    ∧ (∀ e ∈ (sampleStorage.goDBQueues fun _ => true).flatten,
        e.dbName ≠ "dicts") := by
  have h := C3_dicts_closed_last sampleStorage (by decide) (fun _ => true)
    ((sampleStorage.goDBQueues fun _ => true).flatten) (List.Perm.refl _)
  exact ⟨h.1, h.2.1⟩

/-- C8: Close always returns nil, and for every assignment of close
errors and every interleaving of the close goroutines, the close of
every one of the five databases is still attempted — the engine-close
event of each database, error flag included, is in the trace. -/
theorem C8_close_returns_nil (s : Storage) (hn : s.wellFormed)
    (fails : String → Bool) (u : List CloseEvent)
    (hu : u.Perm (s.goDBQueues fails).flatten) :
    (s.CloseRun fails u).1 = none
    ∧ (∀ nm ∈ (["main", "dimensions", "segments", "dicts", "trees"] :
          List String),
        CloseEvent.engineClose nm (fails nm) ∈ (s.CloseRun fails u).2) := by
  obtain ⟨h1, h2, h3, h4, h5, c1, c2, c3, c4, c5⟩ := hn
  refine ⟨rfl, ?_⟩
  intro nm hnm
  have htrace : (s.CloseRun fails u).2 = u ++ dbCloseEvents s.dicts fails := rfl
  rw [htrace]
  simp only [List.mem_cons, List.not_mem_nil, or_false] at hnm
  rcases hnm with rfl | rfl | rfl | rfl | rfl
  · exact List.mem_append_left _
      (engineClose_mem_interleaving s ⟨h1, h2, h3, h4, h5, c1, c2, c3, c4, c5⟩
        fails u hu _ (by simp))
  · exact List.mem_append_left _
      (engineClose_mem_interleaving s ⟨h1, h2, h3, h4, h5, c1, c2, c3, c4, c5⟩
        fails u hu _ (by simp))
  · exact List.mem_append_left _
      (engineClose_mem_interleaving s ⟨h1, h2, h3, h4, h5, c1, c2, c3, c4, c5⟩
        fails u hu _ (by simp))
  · refine List.mem_append_right _ ?_
    simp [dbCloseEvents, h4, c4]
  · exact List.mem_append_left _
      (engineClose_mem_interleaving s ⟨h1, h2, h3, h4, h5, c1, c2, c3, c4, c5⟩
        fails u hu _ (by simp))

/-- Witness for C8 at the sample storage, every close attempt erroring,
and the reversed interleaving of the close goroutines. -/
theorem C8_close_returns_nil_witness :
    (sampleStorage.CloseRun (fun _ => true)
        ((sampleStorage.goDBQueues fun _ => true).flatten.reverse)).1 = none
    ∧ (∀ nm ∈ (["main", "dimensions", "segments", "dicts", "trees"] :
          List String),
        CloseEvent.engineClose nm true ∈
          (sampleStorage.CloseRun (fun _ => true)
            ((sampleStorage.goDBQueues fun _ => true).flatten.reverse)).2) := by
  have h := C8_close_returns_nil sampleStorage (by decide) (fun _ => true)
    ((sampleStorage.goDBQueues fun _ => true).flatten.reverse)
    ((sampleStorage.goDBQueues fun _ => true).flatten.reverse_perm)
  exact ⟨h.1, fun nm hm => h.2 nm hm⟩

/-- C9: in every reachable state of the maintenance-mutex system, at
most one maintenance task body (aggregate size-triggered GC, eviction,
write-back, or per-database incremental GC) is in its critical section,
because each acquires the single maintenance mutex before running; the
witness exhibits a reachable state where the metrics task runs
concurrently with a maintenance body. -/
theorem C9_mutual_exclusion (s : ConcState) (hs : ConcReachable s) :
    ∀ t u : MTask, s.phase t = Phase.critical →
      s.phase u = Phase.critical → t = u := by
  induction hs with
  | refl =>
    intro t u ht hu
    simp [initConc] at ht
  | tail hab hstep ih =>
    cases hstep with
    | lockRequest t0 h0 =>
      intro t u ht hu
      simp only [Function.update_apply] at ht hu
      by_cases het : t = t0
      · rw [if_pos het] at ht
        simp at ht
      · rw [if_neg het] at ht
        by_cases heu : u = t0
        · rw [if_pos heu] at hu
          simp at hu
        · rw [if_neg heu] at hu
          exact ih t u ht hu
    | lockAcquire t0 h0 hfree =>
      intro t u ht hu
      simp only [Function.update_apply] at ht hu
      by_cases het : t = t0
      · by_cases heu : u = t0
        · rw [het, heu]
        · rw [if_neg heu] at hu
          exact absurd hu (hfree u)
      · rw [if_neg het] at ht
        exact absurd ht (hfree t)
    | unlock t0 h0 =>
      intro t u ht hu
      simp only [Function.update_apply] at ht hu
      by_cases het : t = t0
      · rw [if_pos het] at ht
        simp at ht
      · rw [if_neg het] at ht
        by_cases heu : u = t0
        · rw [if_pos heu] at hu
          simp at hu
        · rw [if_neg heu] at hu
          exact ih t u ht hu
    | metricsStart h0 =>
      intro t u ht hu
      exact ih t u ht hu
    | metricsEnd h0 =>
      intro t u ht hu
      exact ih t u ht hu

/-- Witness for C9: after the aggregate-GC task requests and acquires
the mutex and the metrics body starts, the system is in a reachable
state where the metrics task runs while the aggregate-GC body is in its
critical section, and mutual exclusion holds there. -/
theorem C9_mutual_exclusion_witness :
    ∃ s : ConcState, ConcReachable s ∧ s.metricsRunning = true
      ∧ s.phase MTask.aggregateGC = Phase.critical
      ∧ (∀ t u : MTask, s.phase t = Phase.critical →
          s.phase u = Phase.critical → t = u) := by
  have st1 := ConcStep.lockRequest initConc MTask.aggregateGC rfl
  have st2 := ConcStep.lockAcquire
    ⟨Function.update initConc.phase MTask.aggregateGC Phase.waiting,
      initConc.metricsRunning⟩ MTask.aggregateGC (by decide) (by decide)
  have st3 := ConcStep.metricsStart
    ⟨Function.update (Function.update initConc.phase MTask.aggregateGC
        Phase.waiting) MTask.aggregateGC Phase.critical,
      initConc.metricsRunning⟩ rfl
  have hreach : ConcReachable
      ⟨Function.update (Function.update initConc.phase MTask.aggregateGC
          Phase.waiting) MTask.aggregateGC Phase.critical, true⟩ :=
    Relation.ReflTransGen.tail (Relation.ReflTransGen.tail
      (Relation.ReflTransGen.tail Relation.ReflTransGen.refl st1) st2) st3
  exact ⟨_, hreach, rfl, by decide, C9_mutual_exclusion _ hreach⟩

end PyroStorage
